import Mathlib

/-!
Verification of the Weather Dashboard MCP app client view-state logic
(persisted favorites / search history, viewport height negotiation,
activity log cap, progressive insight stream timers, comparison set).

The definitions below are a shallow embedding of the TypeScript source:
JSON values and browser localStorage are modelled explicitly, fallible
operations (JSON.parse, localStorage.setItem) return Except, and module
level mutable variables become fields of an explicit state record.
-/

namespace WeatherApp

/-- JSON values, as produced by a successful JSON.parse. -/
inductive JValue : Type where
  | null : JValue
  | bool : Bool → JValue
  | num : Int → JValue
  | str : String → JValue
  | arr : List JValue → JValue
  | obj : List (String × JValue) → JValue
deriving Repr

/-- A value sitting in localStorage under some key: either text that fails
JSON.parse, or text whose parse yields the given JSON value. -/
inductive StoredValue : Type where
  | malformed : String → StoredValue
  | json : JValue → StoredValue
deriving Repr

/-- localStorage, modelled as an association list from keys to stored values. -/
def Storage : Type := List (String × StoredValue)

/-- localStorage.getItem: the most recent value stored under the key, if any. -/
def getItem (store : Storage) (key : String) : Option StoredValue :=
  (store.find? (fun p => p.1 == key)).map Prod.snd

/-- JSON.parse, on a stored value: raises on malformed text. -/
def jsonParse : StoredValue → Except String JValue
  | .malformed raw => .error ("SyntaxError: unexpected token in " ++ raw)
  | .json v => .ok v

/-- JavaScript property access `v.k` on a parsed JSON value: raises a
TypeError on null, yields undefined (`none`) on other non-objects and on
objects lacking the field. -/
def jsGetField : JValue → String → Except String (Option JValue)
  | .null, _ => .error "TypeError: cannot read properties of null"
  | .obj fields, k => .ok ((fields.find? (fun p => p.1 == k)).map Prod.snd)
  | _, _ => .ok none

/-- Array.isArray-guarded read: the elements of the field when it is an array. -/
def asArray : Option JValue → Option (List JValue)
  | some (.arr xs) => some xs
  | _ => none

/-- The storage key `weather-state-${viewUUID}` used by the app. -/
def storageKey (uuid : String) : String := "weather-state-" ++ uuid

/-- JavaScript String.prototype.toLowerCase, modelled characterwise (the
source compares location names only through toLowerCase). -/
def toLowerCase (s : String) : String := String.mk (s.data.map Char.toLower)

/-- The raw state produced by loadPersistedState: the favorites and
searchHistory fields as the (unvalidated) element lists of the stored
arrays, and lastLocation passed through untouched. -/
structure RawPersistedState : Type where
  favorites : List JValue
  searchHistory : List JValue
  lastLocation : Option JValue
deriving Repr

/-- The `defaultState` local of loadPersistedState. -/
def defaultRawState : RawPersistedState :=
  { favorites := [], searchHistory := [], lastLocation := none }

/-- loadPersistedState from the weather app source: returns the default on a
missing viewUUID, a missing key, or any exception (parse failure, TypeError
on field access); otherwise each array field is kept only if Array.isArray
holds for it, and lastLocation is passed through. -/
def loadPersistedState (viewUUID : Option String) (store : Storage) :
    RawPersistedState :=
  match viewUUID with
  | none => defaultRawState
  | some uuid =>
    match getItem store (storageKey uuid) with
    | none => defaultRawState
    | some stored =>
      let attempt : Except String RawPersistedState := do
        let state ← jsonParse stored
        let favs ← jsGetField state "favorites"
        let hist ← jsGetField state "searchHistory"
        let last ← jsGetField state "lastLocation"
        pure { favorites := (asArray favs).getD []
               searchHistory := (asArray hist).getD []
               lastLocation := last }
      match attempt with
      | .ok s => s
      | .error _ => defaultRawState

/-- A favorite location entry, as built by addToFavorites. -/
structure FavoriteLocation : Type where
  location : String
  latitude : Int
  longitude : Int
  addedAt : Nat
deriving Repr, DecidableEq

/-- A search history entry, as built by addToSearchHistory. -/
structure SearchHistoryEntry : Type where
  location : String
  timestamp : Nat
deriving Repr, DecidableEq

/-- The in-memory persisted state (module variable `persistedState`). -/
structure PersistedWeatherState : Type where
  favorites : List FavoriteLocation
  searchHistory : List SearchHistoryEntry
  lastLocation : Option String
deriving Repr, DecidableEq

/-- JSON encoding of a favorite, as produced by JSON.stringify. -/
def encodeFavorite (f : FavoriteLocation) : JValue :=
  .obj [("location", .str f.location), ("latitude", .num f.latitude),
        ("longitude", .num f.longitude), ("addedAt", .num (Int.ofNat f.addedAt))]

/-- JSON encoding of a history entry, as produced by JSON.stringify. -/
def encodeHistoryEntry (e : SearchHistoryEntry) : JValue :=
  .obj [("location", .str e.location), ("timestamp", .num (Int.ofNat e.timestamp))]

/-- JSON encoding of the whole persisted state, as produced by JSON.stringify. -/
def encodeState (s : PersistedWeatherState) : JValue :=
  .obj ([("favorites", .arr (s.favorites.map encodeFavorite)),
         ("searchHistory", .arr (s.searchHistory.map encodeHistoryEntry))] ++
        (match s.lastLocation with
         | some l => [("lastLocation", JValue.str l)]
         | none => []))

/-- localStorage.setItem: may throw (e.g. QuotaExceededError); on success the
key is rebound at the front of the association list. -/
def setItem (writeFails : Bool) (store : Storage) (key : String)
    (v : StoredValue) : Except String Storage :=
  if writeFails then .error "QuotaExceededError"
  else .ok ((key, v) :: store.filter (fun p => p.1 != key))

/-- savePersistedState from the source: a no-op without a viewUUID; otherwise
writes the serialized state, catching any setItem failure and logging a
console warning instead of raising. Returns the storage after the call and
the console lines it printed. -/
def savePersistedState (viewUUID : Option String) (writeFails : Bool)
    (store : Storage) (state : PersistedWeatherState) :
    Storage × List String :=
  match viewUUID with
  | none => (store, [])
  | some uuid =>
    match setItem writeFails store (storageKey uuid) (.json (encodeState state)) with
    | .ok store2 => (store2, ["[WEATHER-APP] Saved persisted state"])
    | .error _ => (store, ["Failed to save persisted state:"])

/-- Log levels of the host logging channel. -/
inductive LogLevel : Type where
  | info
  | warning
  | error
deriving Repr, DecidableEq

/-- The module-level mutable state relevant to persistence: the view
identifier, the in-memory persisted state, the storage behind localStorage,
whether localStorage writes currently fail, and the emitted host-log and
console lines. -/
structure AppState : Type where
  viewUUID : Option String
  persistedState : PersistedWeatherState
  store : Storage
  writeFails : Bool
  hostLogs : List (LogLevel × String)
  consoleLogs : List String

/-- Run savePersistedState against an app state, threading storage and the
console sink (the in-memory persistedState is not read back from storage). -/
def doSave (st : AppState) : AppState :=
  let r := savePersistedState st.viewUUID st.writeFails st.store st.persistedState
  { st with store := r.1, consoleLogs := st.consoleLogs ++ r.2 }

/-- addToSearchHistory from the source: drop case-insensitive duplicates,
unshift the new entry, keep the first 10, then save. -/
def addToSearchHistory (location : String) (now : Nat) (st : AppState) :
    AppState :=
  let filtered := st.persistedState.searchHistory.filter
    (fun e => (toLowerCase e.location) != (toLowerCase location))
  let newHistory :=
    (({ location := location, timestamp := now } : SearchHistoryEntry)
      :: filtered).take 10
  doSave { st with persistedState :=
    { st.persistedState with searchHistory := newHistory } }

/-- addToFavorites from the source: warn and return when a case-insensitive
match exists; otherwise push the new favorite, save, and log. -/
def addToFavorites (location : String) (latitude longitude : Int) (now : Nat)
    (st : AppState) : AppState :=
  let exists_ := st.persistedState.favorites.any
    (fun fav => (toLowerCase fav.location) == (toLowerCase location))
  if exists_ then
    { st with hostLogs :=
        st.hostLogs ++ [(LogLevel.warning, "Location already in favorites")] }
  else
    let st2 := doSave { st with persistedState :=
      { st.persistedState with favorites :=
          st.persistedState.favorites ++
            [{ location := location, latitude := latitude,
               longitude := longitude, addedAt := now }] } }
    { st2 with hostLogs :=
        st2.hostLogs ++ [(LogLevel.info, "Added " ++ location ++ " to favorites")] }

/-- removeFromFavorites from the source: filter out case-insensitive matches,
save, and log. -/
def removeFromFavorites (location : String) (st : AppState) : AppState :=
  let newFavorites := st.persistedState.favorites.filter
    (fun fav => (toLowerCase fav.location) != (toLowerCase location))
  let st2 := doSave { st with persistedState :=
    { st.persistedState with favorites := newFavorites } }
  { st2 with hostLogs :=
      st2.hostLogs ++ [(LogLevel.info, "Removed " ++ location ++ " from favorites")] }

/-- isFavorited from the source: case-insensitive membership test. -/
def isFavorited (location : String) (st : AppState) : Bool :=
  st.persistedState.favorites.any
    (fun fav => (toLowerCase fav.location) == (toLowerCase location))

/-- One user-driven mutation of the persisted state. -/
inductive MgrOp : Type where
  | search : String → Nat → MgrOp
  | addFav : String → Int → Int → Nat → MgrOp
  | removeFav : String → MgrOp
deriving Repr

/-- Apply one mutation. -/
def applyOp (op : MgrOp) (st : AppState) : AppState :=
  match op with
  | .search loc t => addToSearchHistory loc t st
  | .addFav loc lat lon t => addToFavorites loc lat lon t st
  | .removeFav loc => removeFromFavorites loc st

/-- Apply a sequence of mutations, oldest first. -/
def runOps : List MgrOp → AppState → AppState
  | [], st => st
  | op :: rest, st => runOps rest (applyOp op st)

/-! Height components for the viewport-size negotiation (source constants). -/

def HEIGHT_BASE : Nat := 740
def HEIGHT_FORECAST : Nat := 210
def HEIGHT_LOG_COLLAPSED : Nat := 50
def HEIGHT_LOG_EXPANDED : Nat := 349

/-- The totalHeight computed by updateViewportHeight from the two visibility
flags isForecastVisible and isLogExpanded. -/
def updateViewportHeightValue (isForecastVisible isLogExpanded : Bool) : Nat :=
  let forecastHeight := if isForecastVisible then HEIGHT_FORECAST else 0
  let logHeight := if isLogExpanded then HEIGHT_LOG_EXPANDED else HEIGHT_LOG_COLLAPSED
  HEIGHT_BASE + forecastHeight + logHeight

/-- Modelled from the spec (section 4.2): computePreferredHeight as the spec
writes it, over the constant table {base, forecastExpandedHeight,
logCollapsedHeight, logExpandedHeight}; to be compared with the value the
updateViewportHeight of the source computes. -/
def computePreferredHeightSpec (base fE lC lE : Nat)
    (forecastExpanded logExpanded : Bool) : Nat :=
  base + (if forecastExpanded then fE else 0) +
    (if logExpanded then lE else lC)

/-- An entry of the activity-log UI panel. -/
structure UiLogEntry : Type where
  level : LogLevel
  timestamp : String
  message : String
deriving Repr, DecidableEq

/-- addLogEntry from the source, restricted to the logEntries array: push the
new entry, then shift the oldest out when the length exceeds 50. -/
def addLogEntry (entries : List UiLogEntry) (e : UiLogEntry) : List UiLogEntry :=
  let pushed := entries ++ [e]
  if 50 < pushed.length then pushed.tail else pushed

/-- Fold addLogEntry over a sequence of entries, oldest first. -/
def runAddLogEntries (entries : List UiLogEntry) (es : List UiLogEntry) :
    List UiLogEntry :=
  es.foldl addLogEntry entries

/-! The progressive insight stream (displayProgressiveInsights). -/

/-- One stream update as delivered in the `_meta.updates` of the tool result. -/
structure StreamUpdate : Type where
  phase : Nat
  title : String
  delay : Nat
deriving Repr, DecidableEq

/-- A pending one-shot timer armed by setTimeout: the absolute time at which
it fires and the index of the phase its handler renders. -/
structure PhaseTimer : Type where
  fireAt : Nat
  phaseIndex : Nat
deriving Repr, DecidableEq

/-- The `updates.forEach((update, index) => setTimeout(..., update.delay))`
loop: every timer is armed at the single instant `t0` at which the full list
was received, with the timer of phase i due at `t0 + update.delay`. -/
def armPhaseTimers (t0 : Nat) : List StreamUpdate → Nat → List PhaseTimer
  | [], _ => []
  | u :: rest, i => { fireAt := t0 + u.delay, phaseIndex := i }
      :: armPhaseTimers t0 rest (i + 1)

/-- The state of one stream modal session: the pending timers, whether the
modal is still attached to the document, the phase indices whose handler has
run (each appends a phase element to the phases container and pushes a host
log line), and the host log lines so far. -/
structure StreamSession : Type where
  timers : List PhaseTimer
  modalAttached : Bool
  renderedPhases : List Nat
  logLines : List String
deriving Repr, DecidableEq

/-- Opening the stream modal at time t0: the modal is attached and all phase
timers are armed at once. -/
def openStream (t0 : Nat) (updates : List StreamUpdate) : StreamSession :=
  { timers := armPhaseTimers t0 updates 0
    modalAttached := true
    renderedPhases := []
    logLines := [] }

/-- The close-button / backdrop handler of the source: `modal.remove()` and
nothing else — the pending timers are left armed. -/
def dismissStream (s : StreamSession) : StreamSession :=
  { s with modalAttached := false }

/-- Advance the session to wall-clock time t: every pending timer due at or
before t fires, and its handler runs unconditionally (the source installs no
cancellation), rendering its phase into the (possibly detached) container
and logging. Handlers run in order of their position in the timer list. -/
def fireUpTo (t : Nat) (s : StreamSession) : StreamSession :=
  { s with
    timers := s.timers.filter (fun tm => t < tm.fireAt)
    renderedPhases := s.renderedPhases ++
      ((s.timers.filter (fun tm => tm.fireAt ≤ t)).map (fun tm => tm.phaseIndex))
    logLines := s.logLines ++
      ((s.timers.filter (fun tm => tm.fireAt ≤ t)).map
        (fun tm => "Stream phase received: " ++ toString tm.phaseIndex)) }

/-! The comparison-set manager. -/

/-- Modelled from the spec: the current view of the comparison UI — a
comparison grid over an ordered location set, or single-location rendering.
The Comparison-Set Manager implementation (the compare-weather app) is not
among the available source files; only its Playwright tests are, so this
component follows spec section 4.5. -/
inductive ViewMode : Type where
  | comparison : List String → ViewMode
  | single : String → ViewMode
deriving Repr, DecidableEq

/-- Modelled from the spec: remove the first matching entry by position. -/
def removeFirstMatch : List String → String → List String
  | [], _ => []
  | x :: rest, loc => if x == loc then rest else x :: removeFirstMatch rest loc

/-- Modelled from the spec: removeLocation removes the first matching entry
by position; when the resulting set length is exactly 1 the UI exits
comparison mode and renders the remaining entry as a single location, not a
one-element comparison grid. -/
def removeLocation (loc : String) : ViewMode → ViewMode
  | .comparison locs =>
    let rest := removeFirstMatch locs loc
    match rest with
    | [r] => .single r
    | _ => .comparison rest
  | v => v

end WeatherApp

namespace WeatherApp

/-! Theorems settling the claims. -/

/-- C4: the height reported by updateViewportHeight is a pure function of the
two visibility flags and the constant table, equal to the formula of the spec
`base + (forecastExpanded ? forecastExpandedHeight : 0) +
(logExpanded ? logExpandedHeight : logCollapsedHeight)`, and in the initial
state (both flags false, as at module load and in initialize) it equals
`base + logCollapsedHeight`. -/
theorem updateViewportHeight_matches_spec :
    (∀ isForecastVisible isLogExpanded : Bool,
      updateViewportHeightValue isForecastVisible isLogExpanded =
        computePreferredHeightSpec HEIGHT_BASE HEIGHT_FORECAST
          HEIGHT_LOG_COLLAPSED HEIGHT_LOG_EXPANDED isForecastVisible isLogExpanded) ∧
    updateViewportHeightValue false false = HEIGHT_BASE + HEIGHT_LOG_COLLAPSED := by
  constructor
  · intro f l
    cases f <;> cases l <;> rfl
  · rfl

/-- Helper: one addLogEntry call keeps the UI log at 50 entries or fewer. -/
theorem addLogEntry_length_le (entries : List UiLogEntry) (e : UiLogEntry)
    (h : entries.length ≤ 50) : (addLogEntry entries e).length ≤ 50 := by
  by_cases h51 : 50 < entries.length + 1
  · have heq : addLogEntry entries e = (entries ++ [e]).tail := by
      simp [addLogEntry, h51]
    rw [heq]
    simp only [List.length_tail, List.length_append, List.length_singleton]
    omega
  · have heq : addLogEntry entries e = entries ++ [e] := by
      simp [addLogEntry, h51]
    rw [heq]
    simp only [List.length_append, List.length_singleton]
    omega

/-- C10: starting from the empty logEntries array, no sequence of addLogEntry
calls makes it exceed 50 entries, and when the array already holds 50 entries
a new entry evicts the oldest entry (the head of the array). -/
theorem logEntries_capped_at_fifty :
    (∀ es : List UiLogEntry, (runAddLogEntries [] es).length ≤ 50) ∧
    (∀ (entries : List UiLogEntry) (e : UiLogEntry), entries.length = 50 →
      addLogEntry entries e = entries.tail ++ [e]) := by
  constructor
  · have general : ∀ (es entries : List UiLogEntry), entries.length ≤ 50 →
        (runAddLogEntries entries es).length ≤ 50 := by
      intro es
      induction es with
      | nil => intro entries h; exact h
      | cons e rest ih =>
        intro entries h
        have : runAddLogEntries entries (e :: rest) =
            runAddLogEntries (addLogEntry entries e) rest := rfl
        rw [this]
        exact ih _ (addLogEntry_length_le entries e h)
    intro es
    exact general es [] (by simp)
  · intro entries e h50
    unfold addLogEntry
    have hlen : 50 < (entries ++ [e]).length := by
      simp [h50]
    rw [if_pos hlen]
    cases entries with
    | nil => simp at h50
    | cons a rest => rfl

/-- A sample UI log entry used in concrete witnesses. -/
def sampleLogEntryA : UiLogEntry :=
  { level := .info, timestamp := "t", message := "m" }

/-- A second sample UI log entry used in concrete witnesses. -/
def sampleLogEntryB : UiLogEntry :=
  { level := .warning, timestamp := "u", message := "n" }

/-- C10 witness: the cap and the eviction behavior at concrete inputs. -/
theorem logEntries_capped_at_fifty_witness :
    (runAddLogEntries [] (List.replicate 60 sampleLogEntryA)).length ≤ 50 ∧
    addLogEntry (List.replicate 50 sampleLogEntryA) sampleLogEntryB =
      (List.replicate 50 sampleLogEntryA).tail ++ [sampleLogEntryB] :=
  ⟨logEntries_capped_at_fifty.1 _,
   logEntries_capped_at_fifty.2 _ _ (by simp)⟩

/-- Helper: the i-th timer armed by the forEach loop is due at exactly
`t0 + updates[i].delay` and renders phase index `j + i`. -/
theorem armPhaseTimers_getElem (t0 : Nat) (updates : List StreamUpdate) :
    ∀ (j i : Nat), (armPhaseTimers t0 updates j)[i]? =
      (updates[i]?).map
        (fun u => { fireAt := t0 + u.delay, phaseIndex := j + i }) := by
  induction updates with
  | nil => intro j i; simp [armPhaseTimers]
  | cons u rest ih =>
    intro j i
    cases i with
    | zero => simp [armPhaseTimers]
    | succ i' =>
      have hstep : (armPhaseTimers t0 (u :: rest) j)[i' + 1]? =
          (armPhaseTimers t0 rest (j + 1))[i']? := by
        simp [armPhaseTimers]
      rw [hstep, ih (j + 1) i']
      have harith : j + 1 + i' = j + (i' + 1) := by omega
      rw [harith]
      simp

/-- C6: the forEach loop arms exactly one one-shot timer per received phase,
all at the single instant t0 at which the full updates list was received;
the timer for phase i is due at `t0 + updates[i].delay`, so delays are absolute
offsets from stream start, not increments relative to the firing of the
previous phase. -/
theorem stream_timers_absolute_offsets (t0 : Nat) (updates : List StreamUpdate) :
    (armPhaseTimers t0 updates 0).length = updates.length ∧
    (∀ i : Nat, (armPhaseTimers t0 updates 0)[i]? =
      (updates[i]?).map (fun u => { fireAt := t0 + u.delay, phaseIndex := i })) := by
  constructor
  · have general : ∀ (us : List StreamUpdate) (j : Nat),
        (armPhaseTimers t0 us j).length = us.length := by
      intro us
      induction us with
      | nil => intro j; rfl
      | cons u rest ih => intro j; simp [armPhaseTimers, ih]
    exact general updates 0
  · intro i
    have := armPhaseTimers_getElem t0 updates 0 i
    simpa using this

/-- The five-phase update list of the dismissal scenario in the spec, with delays
[1000, 2000, 3000, 4000, 5000] (the titles are those the app renders for the
stream phases). -/
def fivePhaseUpdates : List StreamUpdate :=
  [{ phase := 1, title := "Current Conditions", delay := 1000 },
   { phase := 2, title := "Pattern Analysis", delay := 2000 },
   { phase := 3, title := "Historical Comparison", delay := 3000 },
   { phase := 4, title := "Forecast Predictions", delay := 4000 },
   { phase := 5, title := "Recommendations", delay := 5000 }]

/-- C3 (code bug): the close handler of the modal only detaches the modal and
clears no timer, so dismissing at t=2500ms leaves three timers armed, and by
t=6000ms every phase handler has fired: the first two phases render before
dismissal, and phases with indices 2, 3, 4 render (into the detached
container, also logging) after dismissal — not the claimed "no phase handler
fires after dismissal". -/
theorem stream_dismissal_does_not_clear_timers :
    (fireUpTo 2500 (openStream 0 fivePhaseUpdates)).renderedPhases = [0, 1] ∧
    (dismissStream (fireUpTo 2500 (openStream 0 fivePhaseUpdates))).timers ≠ [] ∧
    (fireUpTo 6000 (dismissStream
      (fireUpTo 2500 (openStream 0 fivePhaseUpdates)))).renderedPhases =
      [0, 1, 2, 3, 4] := by
  refine ⟨rfl, ?_, rfl⟩
  decide

/-- The field a parsed JSON object carries under a key, for non-object and
non-null values none (undefined); used to state what loadPersistedState keeps. -/
def rawField (v : JValue) (k : String) : Option JValue :=
  match v with
  | .obj fields => (fields.find? (fun p => p.1 == k)).map Prod.snd
  | _ => none

/-- Helper: on a non-null parsed value, loadPersistedState keeps each array
field exactly when it is an array, and passes lastLocation through. -/
theorem loadPersistedState_json (uuid : String) (store : Storage) (v : JValue)
    (hget : getItem store (storageKey uuid) = some (.json v)) (hv : v ≠ .null) :
    loadPersistedState (some uuid) store =
      { favorites := (asArray (rawField v "favorites")).getD []
        searchHistory := (asArray (rawField v "searchHistory")).getD []
        lastLocation := rawField v "lastLocation" } := by
  unfold loadPersistedState
  dsimp only
  rw [hget]
  cases v with
  | null => exact absurd rfl hv
  | bool b => rfl
  | num n => rfl
  | str s => rfl
  | arr xs => rfl
  | obj fields => rfl

/-- An empty in-memory persisted state (the module initializer). -/
def emptyPersisted : PersistedWeatherState :=
  { favorites := [], searchHistory := [], lastLocation := none }

/-- A stored state whose favorites field has the wrong shape (a string) but
whose searchHistory is a well-formed one-element array. -/
def wrongShapeStore : Storage :=
  [("weather-state-view1",
    .json (.obj [("favorites", .str "oops"),
      ("searchHistory", .arr [.obj [("location", .str "Paris"),
        ("timestamp", .num 1)]])]))]

/-- C1 counterexample: with favorites stored as a string but a well-formed
searchHistory, loadPersistedState does not return the claimed full default
state — the stored searchHistory survives. -/
theorem loadPersistedState_not_always_full_default :
    loadPersistedState (some "view1") wrongShapeStore ≠ defaultRawState := by
  intro h
  have h2 : (loadPersistedState (some "view1") wrongShapeStore).searchHistory =
      defaultRawState.searchHistory := by rw [h]
  have h3 : (loadPersistedState (some "view1") wrongShapeStore).searchHistory =
      [.obj [("location", .str "Paris"), ("timestamp", .num 1)]] := rfl
  rw [h3] at h2
  exact List.cons_ne_nil _ _ h2

/-- C1 (amended): loadPersistedState is total (never raises); it returns the
full default state when the viewUUID is missing, the key is absent, the
stored text fails to parse, or the parsed value is null (property access
raises and is caught); and each array field individually falls back to []
when its stored value is not an array — a well-shaped sibling field is kept,
so a wrong-shaped favorites does not force the whole default state. -/
theorem loadPersistedState_field_defaults (uuid : String) (store : Storage) :
    loadPersistedState none store = defaultRawState ∧
    (getItem store (storageKey uuid) = none →
      loadPersistedState (some uuid) store = defaultRawState) ∧
    (∀ raw, getItem store (storageKey uuid) = some (.malformed raw) →
      loadPersistedState (some uuid) store = defaultRawState) ∧
    (getItem store (storageKey uuid) = some (.json .null) →
      loadPersistedState (some uuid) store = defaultRawState) ∧
    (∀ v, getItem store (storageKey uuid) = some (.json v) →
      asArray (rawField v "favorites") = none →
      (loadPersistedState (some uuid) store).favorites = []) ∧
    (∀ v, getItem store (storageKey uuid) = some (.json v) →
      asArray (rawField v "searchHistory") = none →
      (loadPersistedState (some uuid) store).searchHistory = []) := by
  refine ⟨rfl, ?_, ?_, ?_, ?_, ?_⟩
  · intro hget
    unfold loadPersistedState
    dsimp only
    rw [hget]
  · intro raw hget
    unfold loadPersistedState
    dsimp only
    rw [hget]
    rfl
  · intro hget
    unfold loadPersistedState
    dsimp only
    rw [hget]
    rfl
  · intro v hget hshape
    by_cases hv : v = JValue.null
    · subst hv
      unfold loadPersistedState
      dsimp only
      rw [hget]
      rfl
    · rw [loadPersistedState_json uuid store v hget hv, hshape]
      rfl
  · intro v hget hshape
    by_cases hv : v = JValue.null
    · subst hv
      unfold loadPersistedState
      dsimp only
      rw [hget]
      rfl
    · rw [loadPersistedState_json uuid store v hget hv, hshape]
      rfl

/-- C1 witness: the default on a missing key and on malformed stored text,
and the per-field default for a wrong-shaped favorites. -/
theorem loadPersistedState_field_defaults_witness :
    loadPersistedState (some "w") [] = defaultRawState ∧
    loadPersistedState (some "w") [("weather-state-w", .malformed "oops")] =
      defaultRawState ∧
    (loadPersistedState (some "view1") wrongShapeStore).favorites = [] :=
  ⟨(loadPersistedState_field_defaults "w" []).2.1 rfl,
   (loadPersistedState_field_defaults "w"
      [("weather-state-w", .malformed "oops")]).2.2.1 "oops" rfl,
   (loadPersistedState_field_defaults "view1" wrongShapeStore).2.2.2.2.1
      _ rfl rfl⟩

/-- An app state with a view identifier whose localStorage writes fail. -/
def sampleAppStateFail : AppState :=
  { viewUUID := some "w", persistedState := emptyPersisted, store := [],
    writeFails := true, hostLogs := [], consoleLogs := [] }

/-- C7: a storage write failure during savePersistedState is caught — the
call returns normally with the storage unchanged and exactly a logged console
warning; and a save never touches the in-memory state, so mutations update
the in-memory state identically whether or not the write succeeds. -/
theorem save_write_failure_ignored (uuid : String) (store : Storage)
    (state : PersistedWeatherState) (st : AppState)
    (hw : st.writeFails = true) :
    savePersistedState (some uuid) true store state =
      (store, ["Failed to save persisted state:"]) ∧
    (doSave st).persistedState = st.persistedState ∧
    (doSave st).store = st.store ∧
    (∀ loc t, (addToSearchHistory loc t st).persistedState =
      (addToSearchHistory loc t { st with writeFails := false }).persistedState) := by
  refine ⟨rfl, rfl, ?_, fun loc t => rfl⟩
  unfold doSave savePersistedState
  cases hv : st.viewUUID with
  | none => rfl
  | some u =>
    rw [hw]
    rfl

/-- C7 witness: the failed save at a concrete state. -/
theorem save_write_failure_ignored_witness :
    savePersistedState (some "w") true [] emptyPersisted =
      ([], ["Failed to save persisted state:"]) ∧
    (doSave sampleAppStateFail).persistedState =
      sampleAppStateFail.persistedState ∧
    (doSave sampleAppStateFail).store = sampleAppStateFail.store ∧
    (addToSearchHistory "Paris" 3 sampleAppStateFail).persistedState =
      (addToSearchHistory "Paris" 3
        { sampleAppStateFail with writeFails := false }).persistedState := by
  have h := save_write_failure_ignored "w" [] emptyPersisted sampleAppStateFail rfl
  exact ⟨h.1, h.2.1, h.2.2.1, h.2.2.2 "Paris" 3⟩

/-- Helper: no manager operation changes the view identifier. -/
theorem applyOp_viewUUID (op : MgrOp) (st : AppState) :
    (applyOp op st).viewUUID = st.viewUUID := by
  cases op with
  | search loc t => rfl
  | addFav loc lat lon t =>
    unfold applyOp addToFavorites
    dsimp only
    split <;> rfl
  | removeFav loc => rfl

/-- Helper: with no view identifier, a manager operation never writes to
durable storage. -/
theorem applyOp_store_of_none (op : MgrOp) (st : AppState)
    (h : st.viewUUID = none) : (applyOp op st).store = st.store := by
  cases op with
  | search loc t =>
    unfold applyOp addToSearchHistory doSave savePersistedState
    rw [h]
  | addFav loc lat lon t =>
    unfold applyOp addToFavorites
    dsimp only
    split
    · rfl
    · unfold doSave savePersistedState
      rw [h]
  | removeFav loc =>
    unfold applyOp removeFromFavorites doSave savePersistedState
    rw [h]

/-- C9: while no view identifier has been received (viewUUID is null),
loadPersistedState returns the default empty state, savePersistedState
performs no storage write, and every sequence of favorite/history mutations
leaves durable storage unchanged — session-only, never persisted. -/
theorem no_viewUUID_mutations_session_only (st : AppState) (ops : List MgrOp)
    (h : st.viewUUID = none) :
    loadPersistedState st.viewUUID st.store = defaultRawState ∧
    (∀ writeFails store state,
      savePersistedState none writeFails store state = (store, [])) ∧
    (runOps ops st).store = st.store := by
  refine ⟨?_, fun w s state => rfl, ?_⟩
  · rw [h]
    rfl
  · induction ops generalizing st with
    | nil => rfl
    | cons op rest ih =>
      have hstep : (runOps (op :: rest) st) = runOps rest (applyOp op st) := rfl
      rw [hstep, ih (applyOp op st) ((applyOp_viewUUID op st).trans h),
        applyOp_store_of_none op st h]

/-- An app state before the first tool result: no view identifier yet. -/
def sampleNoViewState : AppState :=
  { viewUUID := none, persistedState := emptyPersisted, store := [],
    writeFails := false, hostLogs := [], consoleLogs := [] }

/-- A sample sequence of user mutations. -/
def sampleOps : List MgrOp :=
  [.search "Paris" 5, .addFav "Tokyo" 35 139 6, .removeFav "Tokyo"]

/-- C9 witness: the session-only behavior at a concrete pre-tool-result
state and mutation sequence. -/
theorem no_viewUUID_mutations_session_only_witness :
    loadPersistedState sampleNoViewState.viewUUID sampleNoViewState.store =
      defaultRawState ∧
    savePersistedState none true [] emptyPersisted = ([], []) ∧
    (runOps sampleOps sampleNoViewState).store = sampleNoViewState.store := by
  have h := no_viewUUID_mutations_session_only sampleNoViewState sampleOps rfl
  exact ⟨h.1, h.2.1 true [] emptyPersisted, h.2.2⟩

/-- C5: favorites are case-insensitive: after addToFavorites on L1, any case
variant L2 is favorited; and adding when a case-insensitive match already
exists is a no-op that leaves the favorites list and storage unchanged and
appends exactly one warning-level host log (not an error). -/
theorem addFavorite_case_insensitive (L1 L2 : String) (lat lon : Int)
    (t : Nat) (st : AppState) (hcase : (toLowerCase L1) = (toLowerCase L2)) :
    isFavorited L2 (addToFavorites L1 lat lon t st) = true ∧
    (isFavorited L1 st = true →
      (addToFavorites L1 lat lon t st).persistedState.favorites =
        st.persistedState.favorites ∧
      (addToFavorites L1 lat lon t st).store = st.store ∧
      (addToFavorites L1 lat lon t st).hostLogs =
        st.hostLogs ++ [(LogLevel.warning, "Location already in favorites")]) := by
  by_cases hE : st.persistedState.favorites.any
      (fun fav => (toLowerCase fav.location) == (toLowerCase L1)) = true
  · have hred : addToFavorites L1 lat lon t st =
        { st with hostLogs := st.hostLogs ++
            [(LogLevel.warning, "Location already in favorites")] } := by
      unfold addToFavorites
      dsimp only
      rw [if_pos hE]
    refine ⟨?_, fun _ => ⟨by rw [hred], by rw [hred], by rw [hred]⟩⟩
    rw [hred]
    unfold isFavorited
    rw [← hcase]
    exact hE
  · constructor
    · have hred : addToFavorites L1 lat lon t st =
          (fun st2 => { st2 with hostLogs := st2.hostLogs ++
              [(LogLevel.info, "Added " ++ L1 ++ " to favorites")] })
            (doSave { st with persistedState :=
              { st.persistedState with favorites :=
                  st.persistedState.favorites ++
                    [{ location := L1, latitude := lat, longitude := lon,
                       addedAt := t }] } }) := by
        unfold addToFavorites
        dsimp only
        rw [if_neg hE]
      rw [hred]
      unfold isFavorited doSave
      dsimp only
      rw [← hcase]
      simp
    · intro hfav
      exact absurd hfav hE

/-- A favorite entry for the lowercase city name. -/
def tokyoFavorite : FavoriteLocation :=
  { location := "tokyo", latitude := 35, longitude := 139, addedAt := 0 }

/-- An app state already holding a lowercase favorite. -/
def sampleFavState : AppState :=
  { viewUUID := none
    persistedState :=
      { favorites := [tokyoFavorite], searchHistory := [], lastLocation := none }
    store := [], writeFails := false, hostLogs := [], consoleLogs := [] }

/-- C5 witness: the case-insensitive hit and the duplicate no-op at a
concrete state. -/
theorem addFavorite_case_insensitive_witness :
    isFavorited "TOKYO" (addToFavorites "Tokyo" 35 139 7 sampleFavState) = true ∧
    (addToFavorites "Tokyo" 35 139 7 sampleFavState).persistedState.favorites =
      sampleFavState.persistedState.favorites ∧
    (addToFavorites "Tokyo" 35 139 7 sampleFavState).hostLogs =
      sampleFavState.hostLogs ++
        [(LogLevel.warning, "Location already in favorites")] := by
  have h := addFavorite_case_insensitive "Tokyo" "TOKYO" 35 139 7
    sampleFavState (by decide)
  exact ⟨h.1, (h.2 (by decide)).1, (h.2 (by decide)).2.2⟩

/-- The relation between a more recent history entry and any later one:
case-insensitively distinct locations and a no-newer timestamp. -/
def historyRel (a b : SearchHistoryEntry) : Prop :=
  (toLowerCase a.location) ≠ (toLowerCase b.location) ∧ b.timestamp ≤ a.timestamp

/-- Run a sequence of recordSearch calls (location, time), oldest first. -/
def runSearchCalls : List (String × Nat) → AppState → AppState
  | [], st => st
  | c :: rest, st => runSearchCalls rest (addToSearchHistory c.1 c.2 st)

/-- Helper: one addToSearchHistory call preserves the history invariant when
the clock is past every stored timestamp. -/
theorem addToSearchHistory_step (loc : String) (t : Nat) (st : AppState)
    (hp : st.persistedState.searchHistory.Pairwise historyRel)
    (hb : ∀ e ∈ st.persistedState.searchHistory, e.timestamp ≤ t) :
    (addToSearchHistory loc t st).persistedState.searchHistory.Pairwise historyRel ∧
    (addToSearchHistory loc t st).persistedState.searchHistory.length ≤ 10 ∧
    ∀ e ∈ (addToSearchHistory loc t st).persistedState.searchHistory,
      e.timestamp ≤ t := by
  have hhist : (addToSearchHistory loc t st).persistedState.searchHistory =
      (({ location := loc, timestamp := t } : SearchHistoryEntry) ::
        st.persistedState.searchHistory.filter
          (fun e => (toLowerCase e.location) != (toLowerCase loc))).take 10 := rfl
  rw [hhist]
  refine ⟨?_, ?_, ?_⟩
  · apply List.Pairwise.sublist (List.take_sublist _ _)
    rw [List.pairwise_cons]
    constructor
    · intro b hbmem
      have hbold := List.mem_of_mem_filter hbmem
      have hbcond := List.of_mem_filter hbmem
      refine ⟨?_, hb b hbold⟩
      have : (toLowerCase b.location) ≠ (toLowerCase loc) := by
        simpa using hbcond
      exact fun hcontra => this (by simpa using hcontra.symm)
    · exact hp.filter _
  · simp only [List.length_take]
    omega
  · intro e he
    have := List.mem_of_mem_take he
    rcases List.mem_cons.mp this with heq | hmem
    · subst heq; exact le_refl t
    · exact hb e (List.mem_of_mem_filter hmem)

/-- C2: from any state whose history satisfies the invariant and predates the
clock, any sequence of recordSearch calls with nondecreasing times leaves a
history with pairwise case-insensitively distinct locations, ordered most
recent first (nonincreasing timestamps), of length at most 10. -/
theorem recordSearch_history_invariant (calls : List (String × Nat))
    (st : AppState) (t0 : Nat)
    (hp : st.persistedState.searchHistory.Pairwise historyRel)
    (hlen : st.persistedState.searchHistory.length ≤ 10)
    (hb : ∀ e ∈ st.persistedState.searchHistory, e.timestamp ≤ t0)
    (hmono : List.Chain (fun a b => a ≤ b) t0 (calls.map Prod.snd)) :
    (runSearchCalls calls st).persistedState.searchHistory.Pairwise historyRel ∧
    (runSearchCalls calls st).persistedState.searchHistory.length ≤ 10 := by
  induction calls generalizing st t0 with
  | nil => exact ⟨hp, hlen⟩
  | cons c rest ih =>
    rw [List.map_cons, List.chain_cons] at hmono
    obtain ⟨ht0, hchain⟩ := hmono
    have hb2 : ∀ e ∈ st.persistedState.searchHistory, e.timestamp ≤ c.2 :=
      fun e he => le_trans (hb e he) ht0
    have step := addToSearchHistory_step c.1 c.2 st hp hb2
    exact ih (addToSearchHistory c.1 c.2 st) c.2 step.1 step.2.1 step.2.2 hchain

/-- A sample call sequence with case-insensitive repeats and increasing times. -/
def sampleCalls : List (String × Nat) :=
  [("Paris", 1), ("paris", 2), ("Tokyo", 3), ("PARIS", 4)]

/-- C2 witness: the invariant after a concrete call sequence from the empty
initial state. -/
theorem recordSearch_history_invariant_witness :
    (runSearchCalls sampleCalls
      sampleNoViewState).persistedState.searchHistory.Pairwise historyRel ∧
    (runSearchCalls sampleCalls
      sampleNoViewState).persistedState.searchHistory.length ≤ 10 :=
  recordSearch_history_invariant sampleCalls sampleNoViewState 0
    (by simp [sampleNoViewState, emptyPersisted])
    (by simp [sampleNoViewState, emptyPersisted])
    (by simp [sampleNoViewState, emptyPersisted])
    (by simp [sampleCalls, List.chain_cons])

/-- Helper: removeFirstMatch is List.erase — it removes exactly the first
matching entry by position. -/
theorem removeFirstMatch_eq_erase (l : List String) (loc : String) :
    removeFirstMatch l loc = l.erase loc := by
  induction l with
  | nil => rfl
  | cons x rest ih =>
    rw [List.erase_cons]
    by_cases hx : x = loc
    · subst hx
      simp [removeFirstMatch]
    · have hxf : (x == loc) = false := by simp [hx]
      simp [removeFirstMatch, hxf, ih]

/-- C8: on a comparison set of length 2, removing a member leaves exactly one
entry, and the view becomes single-location rendering of that remaining entry
(the UI exits comparison mode, not a one-element grid); removal takes the
first matching entry by position (removeFirstMatch is List.erase). -/
theorem removeLocation_two_exits_comparison (s : List String) (loc : String)
    (h2 : s.length = 2) (hm : loc ∈ s) :
    (s.erase loc).length = 1 ∧
    (∀ r, s.erase loc = [r] →
      removeLocation loc (.comparison s) = .single r) ∧
    (∀ l : List String, removeFirstMatch l loc = l.erase loc) := by
  refine ⟨?_, ?_, fun l => removeFirstMatch_eq_erase l loc⟩
  · rw [List.length_erase_of_mem hm, h2]
  · intro r hr
    unfold removeLocation
    dsimp only
    rw [removeFirstMatch_eq_erase, hr]

/-- C8 witness: starting a Tokyo/Paris comparison and removing Tokyo yields a
single-location view of Paris. -/
theorem removeLocation_two_exits_comparison_witness :
    ((["Tokyo", "Paris"] : List String).erase "Tokyo").length = 1 ∧
    removeLocation "Tokyo" (.comparison ["Tokyo", "Paris"]) =
      .single "Paris" ∧
    removeFirstMatch ["Tokyo", "Paris"] "Tokyo" =
      (["Tokyo", "Paris"] : List String).erase "Tokyo" := by
  have h := removeLocation_two_exits_comparison ["Tokyo", "Paris"] "Tokyo"
    (by decide) (by decide)
  exact ⟨h.1, h.2.1 "Paris" (by decide), h.2.2 ["Tokyo", "Paris"]⟩

end WeatherApp
